import Mathlib

/-!
A verification development for a payments engine: per-client ledger accounts,
a transaction journal with a dispute overlay, and an engine dispatching
deposit / withdrawal / dispute / resolve / chargeback records, translated from
the Rust source (`models.rs`, `engine.rs`, `processor.rs`, `error.rs`).

Monetary amounts (`rust_decimal::Decimal`) are modelled as exact rationals:
the mutators only add, subtract and compare amounts, which `Decimal` performs
exactly. `u16` / `u32` identifiers are modelled as `Nat` (the parser enforces
the ranges). The `HashMap` stores are modelled as functions to `Option`.
-/

namespace Payments

/-- Transaction types as defined in `models.rs`. -/
inductive TransactionType where
  | Deposit
  | Withdrawal
  | Dispute
  | Resolve
  | Chargeback
deriving DecidableEq, Repr

/-- Transaction record from the CSV input (`models.rs`). -/
structure Transaction where
  transaction_type : TransactionType
  client : Nat
  tx : Nat
  amount : Option Rat
deriving DecidableEq, Repr

/-- Account state for a client (`models.rs`). -/
structure Account where
  client : Nat
  available : Rat
  held : Rat
  total : Rat
  locked : Bool
deriving DecidableEq, Repr

/-- `Account::new` -/
def Account.new (client_id : Nat) : Account :=
  { client := client_id, available := 0, held := 0, total := 0, locked := false }

/-- `Account::has_sufficient_funds`: `!self.locked && self.available >= amount`. -/
def Account.has_sufficient_funds (a : Account) (amount : Rat) : Bool :=
  !a.locked && decide (a.available ≥ amount)

/-- `Account::deposit` -/
def Account.deposit (a : Account) (amount : Rat) : Bool × Account :=
  if a.locked then (false, a)
  else (true, { a with available := a.available + amount, total := a.total + amount })

/-- `Account::withdraw` -/
def Account.withdraw (a : Account) (amount : Rat) : Bool × Account :=
  if !(a.has_sufficient_funds amount) then (false, a)
  else (true, { a with available := a.available - amount, total := a.total - amount })

/-- `Account::hold` -/
def Account.hold (a : Account) (amount : Rat) : Bool × Account :=
  if a.locked || decide (a.available < amount) then (false, a)
  else (true, { a with available := a.available - amount, held := a.held + amount })

/-- `Account::release` -/
def Account.release (a : Account) (amount : Rat) : Bool × Account :=
  if a.locked || decide (a.held < amount) then (false, a)
  else (true, { a with held := a.held - amount, available := a.available + amount })

/-- `Account::chargeback` -/
def Account.chargeback (a : Account) (amount : Rat) : Bool × Account :=
  if a.locked || decide (a.held < amount) then (false, a)
  else (true, { a with held := a.held - amount, total := a.total - amount, locked := true })

/-- Store for all processed transactions (`models.rs`): a `HashMap` of
journal entries keyed by `tx_id` plus a disputed-flag overlay. -/
structure TransactionStore where
  transactions : Nat → Option Transaction
  disputed : Nat → Option Bool

/-- `TransactionStore::new` -/
def TransactionStore.new : TransactionStore :=
  { transactions := fun _ => none, disputed := fun _ => none }

/-- `TransactionStore::add_transaction`: `self.transactions.insert(tx.tx, tx)`. -/
def TransactionStore.add_transaction (st : TransactionStore) (t : Transaction) : TransactionStore :=
  { st with transactions := fun x => if x = t.tx then some t else st.transactions x }

/-- `TransactionStore::get_transaction` -/
def TransactionStore.get_transaction (st : TransactionStore) (tx_id : Nat) : Option Transaction :=
  st.transactions tx_id

/-- `TransactionStore::set_disputed`: `self.disputed.insert(tx_id, status)`. -/
def TransactionStore.set_disputed (st : TransactionStore) (tx_id : Nat) (status : Bool) :
    TransactionStore :=
  { st with disputed := fun x => if x = tx_id then some status else st.disputed x }

/-- `TransactionStore::is_disputed`: `self.disputed.get(&tx_id).copied().unwrap_or(false)`. -/
def TransactionStore.is_disputed (st : TransactionStore) (tx_id : Nat) : Bool :=
  (st.disputed tx_id).getD false

/-- Store for all client accounts (`models.rs`). -/
structure AccountStore where
  accounts : Nat → Option Account

/-- `AccountStore::new` -/
def AccountStore.new : AccountStore :=
  { accounts := fun _ => none }

/-- Insertion into the account map (`HashMap::insert`, also the effect of
writing through the `&mut Account` returned by `get_or_create_account`). -/
def AccountStore.insert (m : AccountStore) (c : Nat) (a : Account) : AccountStore :=
  { accounts := fun x => if x = c then some a else m.accounts x }

/-- `AccountStore::get_or_create_account`: `entry(client_id).or_insert_with(Account::new)`.
Returns the (possibly freshly created) account together with the store after
the `entry` call, which inserts a fresh account when the client is absent. -/
def AccountStore.get_or_create_account (m : AccountStore) (c : Nat) : Account × AccountStore :=
  match m.accounts c with
  | some a => (a, m)
  | none => (Account.new c, m.insert c (Account.new c))

/-- Error taxonomy of `error.rs`; the payloads of the two I/O variants are
external library types and carry no information the engine inspects. -/
inductive PaymentEngineError where
  | FileReadError
  | CsvError
  | MissingAmount (tx : Nat)
deriving DecidableEq, Repr

/-- The payment engine state (`engine.rs`). -/
structure PaymentEngine where
  accounts : AccountStore
  transactions : TransactionStore

/-- `PaymentEngine::new` -/
def PaymentEngine.new : PaymentEngine :=
  { accounts := AccountStore.new, transactions := TransactionStore.new }

/-- `PaymentEngine::handle_deposit`. The Rust handler ignores the boolean
result of `Account::deposit` and journals the record unconditionally. -/
def PaymentEngine.handle_deposit (s : PaymentEngine) (t : Transaction) :
    PaymentEngine × Option PaymentEngineError :=
  match t.amount with
  | none => (s, some (.MissingAmount t.tx))
  | some amount =>
    let (account, st) := s.accounts.get_or_create_account t.client
    let (_, account) := account.deposit amount
    ({ accounts := st.insert t.client account,
       transactions := s.transactions.add_transaction t }, none)

/-- `PaymentEngine::handle_withdrawal` -/
def PaymentEngine.handle_withdrawal (s : PaymentEngine) (t : Transaction) :
    PaymentEngine × Option PaymentEngineError :=
  match t.amount with
  | none => (s, some (.MissingAmount t.tx))
  | some amount =>
    let (account, st) := s.accounts.get_or_create_account t.client
    if !(account.has_sufficient_funds amount) then
      ({ s with accounts := st }, none)
    else
      let (_, account) := account.withdraw amount
      ({ accounts := st.insert t.client account,
         transactions := s.transactions.add_transaction t }, none)

/-- `PaymentEngine::handle_dispute` -/
def PaymentEngine.handle_dispute (s : PaymentEngine) (t : Transaction) :
    PaymentEngine × Option PaymentEngineError :=
  match s.transactions.get_transaction t.tx with
  | none => (s, none)
  | some orig =>
    if orig.client ≠ t.client then (s, none)
    else if orig.transaction_type ≠ TransactionType.Deposit then (s, none)
    else if s.transactions.is_disputed t.tx then (s, none)
    else
      match orig.amount with
      | none => (s, some (.MissingAmount t.tx))
      | some amount =>
        let journal := s.transactions.set_disputed t.tx true
        let (account, st) := s.accounts.get_or_create_account t.client
        let (ok, account) := account.hold amount
        let s' : PaymentEngine :=
          { accounts := st.insert t.client account, transactions := journal }
        if ok then (s', none)
        else ({ s' with transactions := s'.transactions.set_disputed t.tx false }, none)

/-- `PaymentEngine::handle_resolve` -/
def PaymentEngine.handle_resolve (s : PaymentEngine) (t : Transaction) :
    PaymentEngine × Option PaymentEngineError :=
  match s.transactions.get_transaction t.tx with
  | none => (s, none)
  | some orig =>
    if orig.client ≠ t.client then (s, none)
    else if !(s.transactions.is_disputed t.tx) then (s, none)
    else
      match orig.amount with
      | none => (s, some (.MissingAmount t.tx))
      | some amount =>
        let journal := s.transactions.set_disputed t.tx false
        let (account, st) := s.accounts.get_or_create_account t.client
        let (ok, account) := account.release amount
        let s' : PaymentEngine :=
          { accounts := st.insert t.client account, transactions := journal }
        if ok then (s', none)
        else ({ s' with transactions := s'.transactions.set_disputed t.tx true }, none)

/-- `PaymentEngine::handle_chargeback` -/
def PaymentEngine.handle_chargeback (s : PaymentEngine) (t : Transaction) :
    PaymentEngine × Option PaymentEngineError :=
  match s.transactions.get_transaction t.tx with
  | none => (s, none)
  | some orig =>
    if orig.client ≠ t.client then (s, none)
    else if !(s.transactions.is_disputed t.tx) then (s, none)
    else
      match orig.amount with
      | none => (s, some (.MissingAmount t.tx))
      | some amount =>
        let journal := s.transactions.set_disputed t.tx false
        let (account, st) := s.accounts.get_or_create_account t.client
        let (ok, account) := account.chargeback amount
        let s' : PaymentEngine :=
          { accounts := st.insert t.client account, transactions := journal }
        if ok then (s', none)
        else ({ s' with transactions := s'.transactions.set_disputed t.tx true }, none)

/-- `PaymentEngine::process_transaction`: lazily create the account, apply the
lock gate (locked accounts accept nothing but disputes), then dispatch. -/
def PaymentEngine.process_transaction (s : PaymentEngine) (t : Transaction) :
    PaymentEngine × Option PaymentEngineError :=
  let (account, st) := s.accounts.get_or_create_account t.client
  let s : PaymentEngine := { s with accounts := st }
  if account.locked ∧ t.transaction_type ≠ TransactionType.Dispute then (s, none)
  else
    match t.transaction_type with
    | .Deposit => s.handle_deposit t
    | .Withdrawal => s.handle_withdrawal t
    | .Dispute => s.handle_dispute t
    | .Resolve => s.handle_resolve t
    | .Chargeback => s.handle_chargeback t

/-- The state after one record; `process_transaction_batch` logs and discards
the per-record error, so batch processing is a fold of this step. -/
def stepState (s : PaymentEngine) (t : Transaction) : PaymentEngine :=
  (s.process_transaction t).1

/-- `PaymentEngine::process_transaction_batch`: process each record of the
batch in order, logging (discarding) per-record errors and continuing. -/
def PaymentEngine.process_transaction_batch (s : PaymentEngine) (ts : List Transaction) :
    PaymentEngine :=
  ts.foldl stepState s

/-- Process records one by one in input order. -/
def processAll (s : PaymentEngine) (ts : List Transaction) : PaymentEngine :=
  ts.foldl stepState s

/-- Feed a list of batches to the engine in order, as the streaming loop in
`processor.rs` does. -/
def processBatches (s : PaymentEngine) (bs : List (List Transaction)) : PaymentEngine :=
  bs.foldl PaymentEngine.process_transaction_batch s

/-- Group an ordered record list into chunks: the streaming loop of
`processor.rs` pushes records into a buffer, flushes it each time it reaches
`batch_size`, and flushes the final shorter remainder. -/
def chunksOf (n : Nat) : List Transaction → List (List Transaction)
  | [] => []
  | x :: xs => (x :: xs.take (n - 1)) :: chunksOf n (xs.drop (n - 1))
termination_by l => l.length
decreasing_by simp only [List.length_drop, List.length_cons]; omega

/-- `process_transactions_stream` restricted to its state effect: the parsed
records grouped into `batch_size` chunks, each fed to the batch processor. -/
def process_transactions_stream (s : PaymentEngine) (batch_size : Nat)
    (ts : List Transaction) : PaymentEngine :=
  processBatches s (chunksOf batch_size ts)

/-- The observable account of a client: the stored account, or a fresh
zero account for a client absent from the store (the value
`get_or_create_account` would produce, and the value every balance read
goes through). -/
def PaymentEngine.view (s : PaymentEngine) (c : Nat) : Account :=
  (s.accounts.accounts c).getD (Account.new c)

/-- Split a character list on a separator (`str::split`): every occurrence of
the separator ends a field, and the final (possibly empty) field is kept. -/
def splitFields (sep : Char) : List Char → List (List Char)
  | [] => [[]]
  | c :: cs =>
    if c = sep then [] :: splitFields sep cs
    else
      match splitFields sep cs with
      | f :: fs => (c :: f) :: fs
      | [] => [[c]]

/-- Trim leading and trailing whitespace from a field (`str::trim`). -/
def trimChars (l : List Char) : List Char :=
  ((l.dropWhile Char.isWhitespace).reverse.dropWhile Char.isWhitespace).reverse

/-- Value of a digit string. -/
def digitsToNat (l : List Char) : Nat :=
  l.foldl (fun n c => n * 10 + (c.toNat - 48)) 0

/-- Parse an unsigned integer field (`str::parse` for unsigned integers on a
plain digit string). -/
def parseNat (l : List Char) : Option Nat :=
  if l ≠ [] ∧ l.all Char.isDigit then some (digitsToNat l) else none

/-- Parse a decimal amount field. Modelled from the behaviour of the
`rust_decimal` crate's `Decimal` string parsing (the source calls
`parts[3].parse()`): an optional sign followed by digits with at most one
decimal point. Negative amounts parse successfully. -/
def parseDecimal (l : List Char) : Option Rat :=
  let (sign, rest) : Rat × List Char :=
    match l with
    | '-' :: r => (-1, r)
    | '+' :: r => (1, r)
    | r => (1, r)
  match splitFields '.' rest with
  | [intPart] =>
    if intPart ≠ [] ∧ intPart.all Char.isDigit then
      some (sign * (digitsToNat intPart : Rat))
    else none
  | [intPart, fracPart] =>
    if (intPart ++ fracPart) ≠ [] ∧ (intPart ++ fracPart).all Char.isDigit then
      some (sign * ((digitsToNat intPart : Rat) +
        (digitsToNat fracPart : Rat) / ((10 : Rat) ^ fracPart.length)))
    else none
  | _ => none

/-- Parse the transaction-type token (`parse_transaction` in `processor.rs`). -/
def parseType (l : List Char) : Option TransactionType :=
  if l = "deposit".toList then some TransactionType.Deposit
  else if l = "withdrawal".toList then some TransactionType.Withdrawal
  else if l = "dispute".toList then some TransactionType.Dispute
  else if l = "resolve".toList then some TransactionType.Resolve
  else if l = "chargeback".toList then some TransactionType.Chargeback
  else none

/-- `parse_transaction` (`processor.rs`): split the line on commas, trim each
field, require at least `type,client,tx`, parse the optional amount (an empty
or absent fourth field means no amount); any field that fails to parse fails
the whole line. -/
def parse_transaction (line : String) : Option Transaction := do
  let parts := (splitFields ',' line.toList).map trimChars
  match parts with
  | ty :: cl :: txf :: rest =>
    let transaction_type ← parseType ty
    let client ← parseNat cl
    guard (client < 65536)
    let tx ← parseNat txf
    guard (tx < 4294967296)
    let amount ← match rest with
      | [] => some (none : Option Rat)
      | amt :: _ => if amt = [] then some none else (parseDecimal amt).map some
    pure { transaction_type := transaction_type, client := client, tx := tx, amount := amount }
  | _ => none

/-! ### Claim C6: the five account mutators are atomic and fail exactly under their stated guards -/

/-- Claim C6: each of the five `Account` operations either fully applies its
stated field changes and returns success, or returns failure leaving every
field of the account unchanged; each fails exactly under its stated guard
(deposit: locked; withdraw and hold: locked or `available < amount`;
release and chargeback: locked or `held < amount`). -/
theorem spec_c6 (a : Account) (amt : Rat) :
    (((a.deposit amt).1 = false ↔ a.locked = true) ∧
     ((a.deposit amt).1 = true →
        (a.deposit amt).2 = { a with available := a.available + amt, total := a.total + amt }) ∧
     ((a.deposit amt).1 = false → (a.deposit amt).2 = a)) ∧
    (((a.withdraw amt).1 = false ↔ (a.locked = true ∨ a.available < amt)) ∧
     ((a.withdraw amt).1 = true →
        (a.withdraw amt).2 = { a with available := a.available - amt, total := a.total - amt }) ∧
     ((a.withdraw amt).1 = false → (a.withdraw amt).2 = a)) ∧
    (((a.hold amt).1 = false ↔ (a.locked = true ∨ a.available < amt)) ∧
     ((a.hold amt).1 = true →
        (a.hold amt).2 = { a with available := a.available - amt, held := a.held + amt }) ∧
     ((a.hold amt).1 = false → (a.hold amt).2 = a)) ∧
    (((a.release amt).1 = false ↔ (a.locked = true ∨ a.held < amt)) ∧
     ((a.release amt).1 = true →
        (a.release amt).2 = { a with held := a.held - amt, available := a.available + amt }) ∧
     ((a.release amt).1 = false → (a.release amt).2 = a)) ∧
    (((a.chargeback amt).1 = false ↔ (a.locked = true ∨ a.held < amt)) ∧
     ((a.chargeback amt).1 = true →
        (a.chargeback amt).2 =
          { a with held := a.held - amt, total := a.total - amt, locked := true }) ∧
     ((a.chargeback amt).1 = false → (a.chargeback amt).2 = a)) := by
  obtain ⟨cl, av, hd, tot, lk⟩ := a
  cases lk <;>
    by_cases h1 : av < amt <;>
      by_cases h2 : hd < amt <;>
        simp [Account.deposit, Account.withdraw, Account.hold, Account.release,
          Account.chargeback, Account.has_sufficient_funds, h1, h2, not_lt, le_of_not_lt]

/-- Witness for C6 at concrete accounts and amounts: a withdrawal of 50 on a
locked account fails and changes nothing, and on an unlocked account with 70
available it does not fail. -/
theorem spec_c6_witness :
    ((Account.mk 1 70 30 100 true).withdraw 50).1 = false ∧
    ((Account.mk 1 70 30 100 true).withdraw 50).2 = Account.mk 1 70 30 100 true ∧
    ((Account.mk 1 70 30 100 false).withdraw 50).1 ≠ false := by
  have h := spec_c6 (Account.mk 1 70 30 100 true) 50
  have h' := spec_c6 (Account.mk 1 70 30 100 false) 50
  have hfail : ((Account.mk 1 70 30 100 true).withdraw 50).1 = false :=
    h.2.1.1.mpr (Or.inl rfl)
  refine ⟨hfail, h.2.1.2.2 hfail, ?_⟩
  intro heq
  rcases h'.2.1.1.mp heq with hl | hv
  · exact absurd hl (by simp)
  · exact absurd hv (by norm_num)

/-! ### Claim C1: every account always satisfies `total = available + held` -/

/-- The books-balance invariant of a single account. -/
def AccInv (a : Account) : Prop := a.total = a.available + a.held

theorem accInv_new (c : Nat) : AccInv (Account.new c) := by
  simp [AccInv, Account.new]

theorem accInv_deposit (a : Account) (amt : Rat) (h : AccInv a) : AccInv (a.deposit amt).2 := by
  obtain ⟨cl, av, hd, tot, lk⟩ := a
  simp only [AccInv] at *
  unfold Account.deposit
  split <;> simp <;> linarith

theorem accInv_withdraw (a : Account) (amt : Rat) (h : AccInv a) : AccInv (a.withdraw amt).2 := by
  obtain ⟨cl, av, hd, tot, lk⟩ := a
  simp only [AccInv] at *
  unfold Account.withdraw
  split <;> simp <;> linarith

theorem accInv_hold (a : Account) (amt : Rat) (h : AccInv a) : AccInv (a.hold amt).2 := by
  obtain ⟨cl, av, hd, tot, lk⟩ := a
  simp only [AccInv] at *
  unfold Account.hold
  split <;> simp <;> linarith

theorem accInv_release (a : Account) (amt : Rat) (h : AccInv a) : AccInv (a.release amt).2 := by
  obtain ⟨cl, av, hd, tot, lk⟩ := a
  simp only [AccInv] at *
  unfold Account.release
  split <;> simp <;> linarith

theorem accInv_chargeback (a : Account) (amt : Rat) (h : AccInv a) : AccInv (a.chargeback amt).2 := by
  obtain ⟨cl, av, hd, tot, lk⟩ := a
  simp only [AccInv] at *
  unfold Account.chargeback
  split <;> simp <;> linarith

/-- All accounts stored in an account map balance their books. -/
def StoreInv (m : AccountStore) : Prop := ∀ c a, m.accounts c = some a → AccInv a

theorem storeInv_insert (m : AccountStore) (c : Nat) (a : Account)
    (hm : StoreInv m) (ha : AccInv a) : StoreInv (m.insert c a) := by
  intro x b hb
  by_cases hx : x = c <;> simp [AccountStore.insert, hx] at hb
  · exact hb ▸ ha
  · exact hm x b hb

theorem storeInv_get_or_create (m : AccountStore) (c : Nat) (hm : StoreInv m) :
    AccInv (m.get_or_create_account c).1 ∧ StoreInv (m.get_or_create_account c).2 := by
  unfold AccountStore.get_or_create_account
  rcases hc : m.accounts c with _ | a
  · exact ⟨accInv_new c, storeInv_insert m c _ hm (accInv_new c)⟩
  · exact ⟨hm c a hc, hm⟩

/-- All accounts in the engine balance their books. -/
def EngineAccInv (s : PaymentEngine) : Prop := StoreInv s.accounts

theorem engineAccInv_deposit (s : PaymentEngine) (t : Transaction) (hs : EngineAccInv s) :
    EngineAccInv (s.handle_deposit t).1 := by
  obtain ⟨h1, h2⟩ := storeInv_get_or_create s.accounts t.client hs
  rcases hga : s.accounts.get_or_create_account t.client with ⟨account, st⟩
  rw [hga] at h1 h2
  rcases hamt : t.amount with _ | amt
  · simp only [PaymentEngine.handle_deposit, hamt]
    exact hs
  · simp only [PaymentEngine.handle_deposit, hamt, hga]
    exact storeInv_insert _ _ _ h2 (accInv_deposit _ _ h1)

theorem engineAccInv_withdrawal (s : PaymentEngine) (t : Transaction) (hs : EngineAccInv s) :
    EngineAccInv (s.handle_withdrawal t).1 := by
  obtain ⟨h1, h2⟩ := storeInv_get_or_create s.accounts t.client hs
  rcases hga : s.accounts.get_or_create_account t.client with ⟨account, st⟩
  rw [hga] at h1 h2
  rcases hamt : t.amount with _ | amt
  · simp only [PaymentEngine.handle_withdrawal, hamt]
    exact hs
  · simp only [PaymentEngine.handle_withdrawal, hamt, hga]
    split
    · exact h2
    · exact storeInv_insert _ _ _ h2 (accInv_withdraw _ _ h1)

theorem engineAccInv_dispute (s : PaymentEngine) (t : Transaction) (hs : EngineAccInv s) :
    EngineAccInv (s.handle_dispute t).1 := by
  obtain ⟨h1, h2⟩ := storeInv_get_or_create s.accounts t.client hs
  rcases hga : s.accounts.get_or_create_account t.client with ⟨account, st⟩
  rw [hga] at h1 h2
  rcases hor : s.transactions.get_transaction t.tx with _ | orig
  · simp only [PaymentEngine.handle_dispute, hor]
    exact hs
  · simp only [PaymentEngine.handle_dispute, hor, hga]
    split
    · exact hs
    split
    · exact hs
    split
    · exact hs
    rcases hamt : orig.amount with _ | amt
    · exact hs
    · rcases hh : account.hold amt with ⟨ok, account2⟩
      simp only [hh]
      have h3 : AccInv account2 := by
        have h4 := accInv_hold account amt h1
        rw [hh] at h4
        exact h4
      split <;> exact storeInv_insert _ _ _ h2 h3

theorem engineAccInv_resolve (s : PaymentEngine) (t : Transaction) (hs : EngineAccInv s) :
    EngineAccInv (s.handle_resolve t).1 := by
  obtain ⟨h1, h2⟩ := storeInv_get_or_create s.accounts t.client hs
  rcases hga : s.accounts.get_or_create_account t.client with ⟨account, st⟩
  rw [hga] at h1 h2
  rcases hor : s.transactions.get_transaction t.tx with _ | orig
  · simp only [PaymentEngine.handle_resolve, hor]
    exact hs
  · simp only [PaymentEngine.handle_resolve, hor, hga]
    split
    · exact hs
    split
    · exact hs
    rcases hamt : orig.amount with _ | amt
    · exact hs
    · rcases hh : account.release amt with ⟨ok, account2⟩
      simp only [hh]
      have h3 : AccInv account2 := by
        have h4 := accInv_release account amt h1
        rw [hh] at h4
        exact h4
      split <;> exact storeInv_insert _ _ _ h2 h3

theorem engineAccInv_chargeback (s : PaymentEngine) (t : Transaction) (hs : EngineAccInv s) :
    EngineAccInv (s.handle_chargeback t).1 := by
  obtain ⟨h1, h2⟩ := storeInv_get_or_create s.accounts t.client hs
  rcases hga : s.accounts.get_or_create_account t.client with ⟨account, st⟩
  rw [hga] at h1 h2
  rcases hor : s.transactions.get_transaction t.tx with _ | orig
  · simp only [PaymentEngine.handle_chargeback, hor]
    exact hs
  · simp only [PaymentEngine.handle_chargeback, hor, hga]
    split
    · exact hs
    split
    · exact hs
    rcases hamt : orig.amount with _ | amt
    · exact hs
    · rcases hh : account.chargeback amt with ⟨ok, account2⟩
      simp only [hh]
      have h3 : AccInv account2 := by
        have h4 := accInv_chargeback account amt h1
        rw [hh] at h4
        exact h4
      split <;> exact storeInv_insert _ _ _ h2 h3

theorem engineAccInv_step (s : PaymentEngine) (t : Transaction) (hs : EngineAccInv s) :
    EngineAccInv (stepState s t) := by
  obtain ⟨h1, h2⟩ := storeInv_get_or_create s.accounts t.client hs
  rcases hga : s.accounts.get_or_create_account t.client with ⟨account, st⟩
  rw [hga] at h1 h2
  have hs' : EngineAccInv { accounts := st, transactions := s.transactions } := h2
  simp only [stepState, PaymentEngine.process_transaction, hga]
  split
  · exact hs'
  · rcases ht : t.transaction_type with _ | _ | _ | _ | _ <;> simp only [ht]
    · exact engineAccInv_deposit _ t hs'
    · exact engineAccInv_withdrawal _ t hs'
    · exact engineAccInv_dispute _ t hs'
    · exact engineAccInv_resolve _ t hs'
    · exact engineAccInv_chargeback _ t hs'

theorem engineAccInv_processAll (l : List Transaction) (s : PaymentEngine)
    (hs : EngineAccInv s) : EngineAccInv (processAll s l) := by
  induction l generalizing s with
  | nil => exact hs
  | cons t rest ih =>
    simpa [processAll] using ih (stepState s t) (engineAccInv_step s t hs)

/-- Claim C1: after processing any sequence of records from the initial
engine, every account in the account store satisfies
`total = available + held`; each mutator preserves the equality. -/
theorem spec_c1 (l : List Transaction) (c : Nat) (a : Account)
    (h : (processAll PaymentEngine.new l).accounts.accounts c = some a) :
    a.total = a.available + a.held := by
  have hinit : EngineAccInv PaymentEngine.new := by
    intro x b hb
    simp [PaymentEngine.new, AccountStore.new] at hb
  exact engineAccInv_processAll l PaymentEngine.new hinit c a h

/-- Witness for C1: a concrete run, with the stored account evaluated. -/
theorem spec_c1_witness :
    (processAll PaymentEngine.new
        [⟨TransactionType.Deposit, 1, 1, some 100⟩,
         ⟨TransactionType.Dispute, 1, 1, none⟩]).accounts.accounts 1 =
      some ⟨1, 0, 100, 100, false⟩ ∧
    (⟨1, 0, 100, 100, false⟩ : Account).total =
      (⟨1, 0, 100, 100, false⟩ : Account).available + (⟨1, 0, 100, 100, false⟩ : Account).held := by
  have h : (processAll PaymentEngine.new
      [⟨TransactionType.Deposit, 1, 1, some 100⟩,
       ⟨TransactionType.Dispute, 1, 1, none⟩]).accounts.accounts 1 =
      some ⟨1, 0, 100, 100, false⟩ := by
    norm_num [processAll, stepState, PaymentEngine.process_transaction,
      PaymentEngine.handle_deposit, PaymentEngine.handle_withdrawal,
      PaymentEngine.handle_dispute, PaymentEngine.handle_resolve,
      PaymentEngine.handle_chargeback, AccountStore.get_or_create_account,
      AccountStore.insert, AccountStore.new, TransactionStore.new,
      TransactionStore.add_transaction, TransactionStore.set_disputed,
      TransactionStore.is_disputed, TransactionStore.get_transaction,
      Account.new, Account.deposit, Account.withdraw, Account.hold,
      Account.release, Account.chargeback, Account.has_sufficient_funds,
      PaymentEngine.new]
  exact ⟨h, spec_c1 _ 1 _ h⟩

/-! ### Claim C2: balances can go negative — the pipeline accepts negative amounts -/

/-- Claim C2 (code bug): the claim (and the spec) requires that accepted
operations never drive `available`, `held` or `total` negative, rejecting
violating operations as no-ops. The code has no validation of amount signs:
the CSV line `deposit,1,1,-50` parses successfully, and processing the parsed
record leaves the account with `available = total = -50 < 0` — the deposit is
applied, not rejected. -/
theorem spec_c2_code_bug :
    parse_transaction "deposit,1,1,-50" =
      some ⟨TransactionType.Deposit, 1, 1, some (-50)⟩ ∧
    ((processAll PaymentEngine.new
        [⟨TransactionType.Deposit, 1, 1, some (-50)⟩]).view 1).available < 0 ∧
    ((processAll PaymentEngine.new
        [⟨TransactionType.Deposit, 1, 1, some (-50)⟩]).view 1).total < 0 := by
  refine ⟨?_, ?_, ?_⟩
  · simp +decide [parse_transaction, parseType, parseNat, parseDecimal, trimChars,
      digitsToNat, splitFields, String.toList, guard, Option.bind]
  all_goals
    norm_num [processAll, stepState, PaymentEngine.process_transaction,
      PaymentEngine.handle_deposit, PaymentEngine.handle_withdrawal,
      PaymentEngine.handle_dispute, PaymentEngine.handle_resolve,
      PaymentEngine.handle_chargeback, AccountStore.get_or_create_account,
      AccountStore.insert, AccountStore.new, TransactionStore.new,
      TransactionStore.add_transaction, TransactionStore.set_disputed,
      TransactionStore.is_disputed, TransactionStore.get_transaction,
      Account.new, Account.deposit, Account.withdraw, Account.hold,
      Account.release, Account.chargeback, Account.has_sufficient_funds,
      PaymentEngine.new, PaymentEngine.view]

/-! ### Claim C4: chunk boundaries have no effect on outcomes -/

theorem chunksOf_flatten (n : Nat) : (l : List Transaction) → (chunksOf n l).flatten = l
  | [] => by simp [chunksOf]
  | x :: xs => by
    rw [chunksOf]
    simp only [List.flatten_cons]
    rw [chunksOf_flatten n (xs.drop (n - 1))]
    simp [List.take_append_drop]
termination_by l => l.length
decreasing_by simp only [List.length_drop, List.length_cons]; omega

theorem processBatches_flatten (bs : List (List Transaction)) (s : PaymentEngine) :
    processBatches s bs = processAll s bs.flatten := by
  induction bs generalizing s with
  | nil => rfl
  | cons b rest ih =>
    simp only [processBatches, List.foldl_cons, List.flatten_cons, processAll, List.foldl_append]
    exact ih (b.foldl stepState s)

/-- Claim C4: feeding the same ordered record list to the engine grouped
into chunks of any two positive sizes yields identical final states, equal
to processing the records one by one in input order. -/
theorem spec_c4 (l : List Transaction) (m n : Nat) (hm : 0 < m) (hn : 0 < n) :
    process_transactions_stream PaymentEngine.new m l =
      process_transactions_stream PaymentEngine.new n l ∧
    process_transactions_stream PaymentEngine.new m l = processAll PaymentEngine.new l := by
  unfold process_transactions_stream
  rw [processBatches_flatten, processBatches_flatten, chunksOf_flatten, chunksOf_flatten]
  exact ⟨rfl, rfl⟩

/-- Witness for C4 at chunk sizes 2 and 3 on a concrete five-record input. -/
theorem spec_c4_witness :
    (0 : Nat) < 2 ∧ (0 : Nat) < 3 ∧
    (process_transactions_stream PaymentEngine.new 2
        [⟨TransactionType.Deposit, 1, 1, some 100⟩,
         ⟨TransactionType.Deposit, 2, 2, some 200⟩,
         ⟨TransactionType.Withdrawal, 1, 3, some 30⟩,
         ⟨TransactionType.Dispute, 2, 2, none⟩,
         ⟨TransactionType.Resolve, 2, 2, none⟩] =
      process_transactions_stream PaymentEngine.new 3
        [⟨TransactionType.Deposit, 1, 1, some 100⟩,
         ⟨TransactionType.Deposit, 2, 2, some 200⟩,
         ⟨TransactionType.Withdrawal, 1, 3, some 30⟩,
         ⟨TransactionType.Dispute, 2, 2, none⟩,
         ⟨TransactionType.Resolve, 2, 2, none⟩] ∧
     process_transactions_stream PaymentEngine.new 2
        [⟨TransactionType.Deposit, 1, 1, some 100⟩,
         ⟨TransactionType.Deposit, 2, 2, some 200⟩,
         ⟨TransactionType.Withdrawal, 1, 3, some 30⟩,
         ⟨TransactionType.Dispute, 2, 2, none⟩,
         ⟨TransactionType.Resolve, 2, 2, none⟩] =
      processAll PaymentEngine.new
        [⟨TransactionType.Deposit, 1, 1, some 100⟩,
         ⟨TransactionType.Deposit, 2, 2, some 200⟩,
         ⟨TransactionType.Withdrawal, 1, 3, some 30⟩,
         ⟨TransactionType.Dispute, 2, 2, none⟩,
         ⟨TransactionType.Resolve, 2, 2, none⟩]) :=
  ⟨by decide, by decide, spec_c4 _ 2 3 (by decide) (by decide)⟩

/-! ### Structural lemmas about one engine step -/

theorem insert_accounts_other (m : AccountStore) (c : Nat) (a : Account) (x : Nat)
    (hx : x ≠ c) : (m.insert c a).accounts x = m.accounts x := by
  simp [AccountStore.insert, hx]

theorem get_or_create_snd_other (m : AccountStore) (c x : Nat) (hx : x ≠ c) :
    ((m.get_or_create_account c).2).accounts x = m.accounts x := by
  unfold AccountStore.get_or_create_account
  rcases h : m.accounts c with _ | a
  · simp [AccountStore.insert, hx]
  · rfl

theorem get_or_create_fst (m : AccountStore) (c : Nat) :
    (m.get_or_create_account c).1 = (m.accounts c).getD (Account.new c) := by
  unfold AccountStore.get_or_create_account
  rcases h : m.accounts c with _ | a <;> rfl

theorem get_or_create_snd_view (m : AccountStore) (c x : Nat) :
    (((m.get_or_create_account c).2).accounts x).getD (Account.new x) =
      (m.accounts x).getD (Account.new x) := by
  unfold AccountStore.get_or_create_account
  rcases h : m.accounts c with _ | a
  · by_cases hx : x = c
    · subst hx
      simp [AccountStore.insert, h]
    · simp [AccountStore.insert, hx]
  · rfl

theorem handle_deposit_accounts_other (s : PaymentEngine) (t : Transaction) (x : Nat)
    (hx : x ≠ t.client) :
    ((s.handle_deposit t).1).accounts.accounts x = s.accounts.accounts x := by
  have h := get_or_create_snd_other s.accounts t.client x hx
  rcases hga : s.accounts.get_or_create_account t.client with ⟨account, st⟩
  rw [hga] at h
  rcases hamt : t.amount with _ | amt
  · simp [PaymentEngine.handle_deposit, hamt]
  · simp only [PaymentEngine.handle_deposit, hamt, hga]
    rw [insert_accounts_other st t.client _ x hx]
    exact h

theorem handle_withdrawal_accounts_other (s : PaymentEngine) (t : Transaction) (x : Nat)
    (hx : x ≠ t.client) :
    ((s.handle_withdrawal t).1).accounts.accounts x = s.accounts.accounts x := by
  have h := get_or_create_snd_other s.accounts t.client x hx
  rcases hga : s.accounts.get_or_create_account t.client with ⟨account, st⟩
  rw [hga] at h
  rcases hamt : t.amount with _ | amt
  · simp [PaymentEngine.handle_withdrawal, hamt]
  · simp only [PaymentEngine.handle_withdrawal, hamt, hga]
    split
    · exact h
    · rw [insert_accounts_other st t.client _ x hx]
      exact h

theorem handle_dispute_accounts_other (s : PaymentEngine) (t : Transaction) (x : Nat)
    (hx : x ≠ t.client) :
    ((s.handle_dispute t).1).accounts.accounts x = s.accounts.accounts x := by
  have h := get_or_create_snd_other s.accounts t.client x hx
  rcases hga : s.accounts.get_or_create_account t.client with ⟨account, st⟩
  rw [hga] at h
  rcases hor : s.transactions.get_transaction t.tx with _ | orig
  · simp [PaymentEngine.handle_dispute, hor]
  · simp only [PaymentEngine.handle_dispute, hor, hga]
    split
    · rfl
    split
    · rfl
    split
    · rfl
    rcases hamt : orig.amount with _ | amt
    · rfl
    · rcases hh : account.hold amt with ⟨ok, account2⟩
      simp only [hh]
      split <;> (rw [insert_accounts_other st t.client _ x hx]; exact h)

theorem handle_resolve_accounts_other (s : PaymentEngine) (t : Transaction) (x : Nat)
    (hx : x ≠ t.client) :
    ((s.handle_resolve t).1).accounts.accounts x = s.accounts.accounts x := by
  have h := get_or_create_snd_other s.accounts t.client x hx
  rcases hga : s.accounts.get_or_create_account t.client with ⟨account, st⟩
  rw [hga] at h
  rcases hor : s.transactions.get_transaction t.tx with _ | orig
  · simp [PaymentEngine.handle_resolve, hor]
  · simp only [PaymentEngine.handle_resolve, hor, hga]
    split
    · rfl
    split
    · rfl
    rcases hamt : orig.amount with _ | amt
    · rfl
    · rcases hh : account.release amt with ⟨ok, account2⟩
      simp only [hh]
      split <;> (rw [insert_accounts_other st t.client _ x hx]; exact h)

theorem handle_chargeback_accounts_other (s : PaymentEngine) (t : Transaction) (x : Nat)
    (hx : x ≠ t.client) :
    ((s.handle_chargeback t).1).accounts.accounts x = s.accounts.accounts x := by
  have h := get_or_create_snd_other s.accounts t.client x hx
  rcases hga : s.accounts.get_or_create_account t.client with ⟨account, st⟩
  rw [hga] at h
  rcases hor : s.transactions.get_transaction t.tx with _ | orig
  · simp [PaymentEngine.handle_chargeback, hor]
  · simp only [PaymentEngine.handle_chargeback, hor, hga]
    split
    · rfl
    split
    · rfl
    rcases hamt : orig.amount with _ | amt
    · rfl
    · rcases hh : account.chargeback amt with ⟨ok, account2⟩
      simp only [hh]
      split <;> (rw [insert_accounts_other st t.client _ x hx]; exact h)

/-- A record never touches the stored account of any other client. -/
theorem step_accounts_other (s : PaymentEngine) (t : Transaction) (x : Nat)
    (hx : x ≠ t.client) :
    (stepState s t).accounts.accounts x = s.accounts.accounts x := by
  have h := get_or_create_snd_other s.accounts t.client x hx
  rcases hga : s.accounts.get_or_create_account t.client with ⟨account, st⟩
  rw [hga] at h
  simp only [stepState, PaymentEngine.process_transaction, hga]
  split
  · exact h
  · rcases ht : t.transaction_type with _ | _ | _ | _ | _ <;> simp only [ht]
    · rw [handle_deposit_accounts_other _ t x hx]; exact h
    · rw [handle_withdrawal_accounts_other _ t x hx]; exact h
    · rw [handle_dispute_accounts_other _ t x hx]; exact h
    · rw [handle_resolve_accounts_other _ t x hx]; exact h
    · rw [handle_chargeback_accounts_other _ t x hx]; exact h

/-- On a locked account every record leaves the whole account store
pointwise unchanged: non-dispute records are dropped at the lock gate, and a
dispute's hold always fails on a locked account. -/
theorem step_locked_accounts (s : PaymentEngine) (t : Transaction)
    (hl : (s.view t.client).locked = true) :
    ∀ x, (stepState s t).accounts.accounts x = s.accounts.accounts x := by
  have hacc : ∃ a, s.accounts.accounts t.client = some a ∧ a.locked = true := by
    unfold PaymentEngine.view at hl
    rcases hsc : s.accounts.accounts t.client with _ | a
    · rw [hsc] at hl
      simp [Account.new] at hl
    · rw [hsc] at hl
      exact ⟨a, rfl, hl⟩
  obtain ⟨a, hsc, hal⟩ := hacc
  have hga : s.accounts.get_or_create_account t.client = (a, s.accounts) := by
    unfold AccountStore.get_or_create_account
    rw [hsc]
  intro x
  simp only [stepState, PaymentEngine.process_transaction, hga]
  split
  · rfl
  · rename_i hgate
    have htd : t.transaction_type = TransactionType.Dispute := by
      by_contra hne
      exact hgate ⟨hal, hne⟩
    simp only [htd]
    show (s.handle_dispute t).1.accounts.accounts x = s.accounts.accounts x
    rcases hor : s.transactions.get_transaction t.tx with _ | orig
    · simp [PaymentEngine.handle_dispute, hor]
    · simp only [PaymentEngine.handle_dispute, hor, hga]
      split
      · rfl
      split
      · rfl
      split
      · rfl
      rcases hamt : orig.amount with _ | amt
      · rfl
      · have hh : a.hold amt = (false, a) := by
          unfold Account.hold
          simp [hal]
        simp only [hga, hh]
        by_cases hx : x = t.client
        · subst hx
          simp [AccountStore.insert, hsc]
        · simp [AccountStore.insert, hx]

/-! ### Claim C3: `locked` is one-way and locked accounts accept nothing but disputes -/

/-- Claim C3: once an account's locked flag is true it never becomes false,
and no further Deposit, Withdrawal, Resolve or Chargeback record for that
client changes the account at all. -/
theorem spec_c3 (s : PaymentEngine) (t : Transaction) (c : Nat)
    (h : (s.view c).locked = true) :
    ((stepState s t).view c).locked = true ∧
    (t.client = c → t.transaction_type ≠ TransactionType.Dispute →
      (stepState s t).view c = s.view c) := by
  by_cases hc : c = t.client
  · subst hc
    have hst := step_locked_accounts s t h
    constructor
    · unfold PaymentEngine.view at *
      rw [hst]
      exact h
    · intro _ _
      unfold PaymentEngine.view
      rw [hst]
  · have hst := step_accounts_other s t c hc
    constructor
    · unfold PaymentEngine.view at *
      rw [hst]
      exact h
    · intro h1 _
      exact absurd h1.symm hc

/-- Witness for C3: a chargeback locks client 1; a later deposit record for
client 1 leaves the account unchanged and still locked. -/
theorem spec_c3_witness :
    (((processAll PaymentEngine.new
        [⟨TransactionType.Deposit, 1, 1, some 100⟩,
         ⟨TransactionType.Dispute, 1, 1, none⟩,
         ⟨TransactionType.Chargeback, 1, 1, none⟩]).view 1).locked = true) ∧
    ((stepState (processAll PaymentEngine.new
        [⟨TransactionType.Deposit, 1, 1, some 100⟩,
         ⟨TransactionType.Dispute, 1, 1, none⟩,
         ⟨TransactionType.Chargeback, 1, 1, none⟩])
        ⟨TransactionType.Deposit, 1, 2, some 50⟩).view 1).locked = true ∧
    ((stepState (processAll PaymentEngine.new
        [⟨TransactionType.Deposit, 1, 1, some 100⟩,
         ⟨TransactionType.Dispute, 1, 1, none⟩,
         ⟨TransactionType.Chargeback, 1, 1, none⟩])
        ⟨TransactionType.Deposit, 1, 2, some 50⟩).view 1 =
      (processAll PaymentEngine.new
        [⟨TransactionType.Deposit, 1, 1, some 100⟩,
         ⟨TransactionType.Dispute, 1, 1, none⟩,
         ⟨TransactionType.Chargeback, 1, 1, none⟩]).view 1) := by
  have h : ((processAll PaymentEngine.new
      [⟨TransactionType.Deposit, 1, 1, some 100⟩,
       ⟨TransactionType.Dispute, 1, 1, none⟩,
       ⟨TransactionType.Chargeback, 1, 1, none⟩]).view 1).locked = true := by
    norm_num [processAll, stepState, PaymentEngine.process_transaction,
      PaymentEngine.handle_deposit, PaymentEngine.handle_withdrawal,
      PaymentEngine.handle_dispute, PaymentEngine.handle_resolve,
      PaymentEngine.handle_chargeback, AccountStore.get_or_create_account,
      AccountStore.insert, AccountStore.new, TransactionStore.new,
      TransactionStore.add_transaction, TransactionStore.set_disputed,
      TransactionStore.is_disputed, TransactionStore.get_transaction,
      Account.new, Account.deposit, Account.withdraw, Account.hold,
      Account.release, Account.chargeback, Account.has_sufficient_funds,
      PaymentEngine.new, PaymentEngine.view]
  exact ⟨h, (spec_c3 _ ⟨TransactionType.Deposit, 1, 2, some 50⟩ 1 h).1,
    (spec_c3 _ ⟨TransactionType.Deposit, 1, 2, some 50⟩ 1 h).2 rfl (by decide)⟩

/-! ### Claim C5: dispute handling is atomic -/

/-- The drop conditions of `handle_dispute`: referenced entry absent, client
mismatch, non-deposit entry, or entry already disputed. -/
def disputeDrops (s : PaymentEngine) (r : Transaction) : Prop :=
  match s.transactions.get_transaction r.tx with
  | none => True
  | some e => e.client ≠ r.client ∨ e.transaction_type ≠ TransactionType.Deposit ∨
      s.transactions.is_disputed r.tx = true

/-- Claim C5: a Dispute record that hits a drop condition changes no
account's observable state and leaves the disputed overlay untouched;
otherwise the disputed flag is set and the hold attempted: on hold failure
the flag is rolled back and the record is a complete no-op, and on hold
success exactly the entry's amount moves from available to held (total and
locked unchanged) with the flag left true. -/
theorem spec_c5 (s : PaymentEngine) (r : Transaction)
    (hk : r.transaction_type = TransactionType.Dispute) :
    (disputeDrops s r →
      (∀ c, (stepState s r).view c = s.view c) ∧
      (stepState s r).transactions.disputed = s.transactions.disputed) ∧
    (∀ e a, s.transactions.get_transaction r.tx = some e → ¬ disputeDrops s r →
      e.amount = some a →
      (((s.view r.client).locked = false ∧ a ≤ (s.view r.client).available →
        ((stepState s r).view r.client).available = (s.view r.client).available - a ∧
        ((stepState s r).view r.client).held = (s.view r.client).held + a ∧
        ((stepState s r).view r.client).total = (s.view r.client).total ∧
        ((stepState s r).view r.client).locked = (s.view r.client).locked ∧
        (stepState s r).transactions.is_disputed r.tx = true ∧
        (∀ c, c ≠ r.client → (stepState s r).view c = s.view c)) ∧
       ((s.view r.client).locked = true ∨ (s.view r.client).available < a →
        (∀ c, (stepState s r).view c = s.view c) ∧
        (∀ u, (stepState s r).transactions.is_disputed u =
          s.transactions.is_disputed u)))) := by
  rcases hga : s.accounts.get_or_create_account r.client with ⟨account, st⟩
  have hfst : account = s.view r.client := by
    have h := get_or_create_fst s.accounts r.client
    rw [hga] at h
    exact h
  have hview : ∀ x, (st.accounts x).getD (Account.new x) =
      (s.accounts.accounts x).getD (Account.new x) := by
    intro x
    have h := get_or_create_snd_view s.accounts r.client x
    rw [hga] at h
    exact h
  have hviewE : ∀ c, (PaymentEngine.view ⟨st, s.transactions⟩ c) = s.view c := by
    intro c
    unfold PaymentEngine.view
    exact hview c
  have hst_client : st.accounts r.client = some (s.view r.client) := by
    unfold AccountStore.get_or_create_account at hga
    rcases hsc : s.accounts.accounts r.client with _ | a <;> rw [hsc] at hga
    · injection hga with h1 h2
      subst h1
      subst h2
      simp [AccountStore.insert, PaymentEngine.view, hsc]
    · injection hga with h1 h2
      subst h1
      subst h2
      simp [PaymentEngine.view, hsc]
  have hstep : stepState s r = (PaymentEngine.handle_dispute ⟨st, s.transactions⟩ r).1 := by
    simp [stepState, PaymentEngine.process_transaction, hga, hk]
  constructor
  · -- drop cases
    intro hdrop
    unfold disputeDrops at hdrop
    rw [hstep]
    rcases hor : s.transactions.get_transaction r.tx with _ | e <;> rw [hor] at hdrop
    · simp only [PaymentEngine.handle_dispute, hor]
      exact ⟨hviewE, by trivial⟩
    · simp only [PaymentEngine.handle_dispute, hor]
      split
      · exact ⟨hviewE, by trivial⟩
      split
      · exact ⟨hviewE, by trivial⟩
      split
      · exact ⟨hviewE, by trivial⟩
      · rename_i h1 h2 h3
        rcases hdrop with hcl | hty | hdp
        · exact absurd hcl h1
        · exact absurd hty h2
        · exact absurd hdp h3
  · -- the dispute goes through the guards
    intro e a hor hnd hamt
    have he1 : e.client = r.client := by
      by_contra hne
      exact hnd (by unfold disputeDrops; rw [hor]; exact Or.inl hne)
    have he2 : e.transaction_type = TransactionType.Deposit := by
      by_contra hne
      exact hnd (by unfold disputeDrops; rw [hor]; exact Or.inr (Or.inl hne))
    have he3 : s.transactions.is_disputed r.tx = false := by
      rcases hd : s.transactions.is_disputed r.tx
      · rfl
      · exact absurd (by unfold disputeDrops; rw [hor]; exact Or.inr (Or.inr hd)) hnd
    rw [hstep]
    have hga2 : st.get_or_create_account r.client = (s.view r.client, st) := by
      unfold AccountStore.get_or_create_account
      rw [hst_client]
    simp only [PaymentEngine.handle_dispute, hor, he1, he2, he3, hamt, ne_eq,
      not_true_eq_false, if_false, Bool.false_eq_true, ite_false]
    simp only [hga2]
    constructor
    · -- hold succeeds
      intro hsucc
      have hcond : ¬(((s.view r.client).locked ||
          decide ((s.view r.client).available < a)) = true) := by
        simp only [hsucc.1, Bool.false_or, decide_eq_true_eq, not_lt]
        exact hsucc.2
      have hh : (s.view r.client).hold a =
          (true, { s.view r.client with
                     available := (s.view r.client).available - a,
                     held := (s.view r.client).held + a }) := by
        unfold Account.hold
        rw [if_neg hcond]
      simp only [hh]
      refine ⟨?_, ?_, ?_, ?_, ?_, ?_⟩
      · simp [PaymentEngine.view, AccountStore.insert]
      · simp [PaymentEngine.view, AccountStore.insert]
      · simp [PaymentEngine.view, AccountStore.insert]
      · simp [PaymentEngine.view, AccountStore.insert]
      · simp [TransactionStore.is_disputed, TransactionStore.set_disputed]
      · intro c hc
        simp [PaymentEngine.view, AccountStore.insert, hc, hview c]
    · -- hold fails
      intro hfail
      have hcond : (((s.view r.client).locked ||
          decide ((s.view r.client).available < a)) = true) := by
        rcases hfail with hl | hv
        · simp [hl]
        · simp [hv]
      have hh : (s.view r.client).hold a = (false, s.view r.client) := by
        unfold Account.hold
        rw [if_pos hcond]
      simp only [hh, Bool.false_eq_true, ite_false]
      constructor
      · intro c
        by_cases hc : c = r.client
        · subst hc
          simp [PaymentEngine.view, AccountStore.insert, hst_client]
        · simp [PaymentEngine.view, AccountStore.insert, hc, hview c]
      · intro u
        by_cases hu : u = r.tx
        · subst hu
          simpa [TransactionStore.is_disputed, TransactionStore.set_disputed] using he3
        · simp [TransactionStore.is_disputed, TransactionStore.set_disputed, hu]

/-- Concrete engine state for the C5 witness: one deposit of 100 by client 1. -/
def c5state : PaymentEngine :=
  processAll PaymentEngine.new [⟨TransactionType.Deposit, 1, 1, some 100⟩]

/-- Concrete dispute record for the C5 witness. -/
def c5rec : Transaction := ⟨TransactionType.Dispute, 1, 1, none⟩

/-- Witness for C5: disputing the deposit moves exactly 100 from available to
held, leaves total and locked alone, and marks the entry disputed. -/
theorem spec_c5_witness :
    ((stepState c5state c5rec).view 1).available = (c5state.view 1).available - 100 ∧
    ((stepState c5state c5rec).view 1).held = (c5state.view 1).held + 100 ∧
    ((stepState c5state c5rec).view 1).total = (c5state.view 1).total ∧
    ((stepState c5state c5rec).view 1).locked = (c5state.view 1).locked ∧
    (stepState c5state c5rec).transactions.is_disputed 1 = true := by
  have hor : c5state.transactions.get_transaction 1 =
      some ⟨TransactionType.Deposit, 1, 1, some 100⟩ := by
    norm_num [c5state, processAll, stepState, PaymentEngine.process_transaction,
      PaymentEngine.handle_deposit, AccountStore.get_or_create_account,
      AccountStore.insert, AccountStore.new, TransactionStore.new,
      TransactionStore.add_transaction, TransactionStore.get_transaction,
      Account.new, Account.deposit, PaymentEngine.new]
  have hnd : ¬ disputeDrops c5state c5rec := by
    unfold disputeDrops
    rw [show c5rec.tx = 1 from rfl, hor]
    norm_num [c5state, c5rec, processAll, stepState, PaymentEngine.process_transaction,
      PaymentEngine.handle_deposit, AccountStore.get_or_create_account,
      AccountStore.insert, AccountStore.new, TransactionStore.new,
      TransactionStore.add_transaction, TransactionStore.is_disputed,
      Account.new, Account.deposit, PaymentEngine.new]
  have hsucc : (c5state.view 1).locked = false ∧ (100 : Rat) ≤ (c5state.view 1).available := by
    constructor <;>
      norm_num [c5state, processAll, stepState, PaymentEngine.process_transaction,
        PaymentEngine.handle_deposit, AccountStore.get_or_create_account,
        AccountStore.insert, AccountStore.new, TransactionStore.new,
        TransactionStore.add_transaction, Account.new, Account.deposit,
        PaymentEngine.new, PaymentEngine.view]
  have h := ((spec_c5 c5state c5rec rfl).2 ⟨TransactionType.Deposit, 1, 1, some 100⟩ 100
    hor hnd rfl).1 hsucc
  exact ⟨h.1, h.2.1, h.2.2.1, h.2.2.2.1, h.2.2.2.2.1⟩

/-! ### Claim C7: dispute then resolve restores the pre-dispute state -/

/-- Claim C7: from any engine state whose journal holds a deposit of 100 by
client `c` under id `t`, not disputed, with the client's account at
`available=100, held=0, total=100, locked=false`, processing Dispute(t) then
Resolve(t) restores the account exactly and leaves `t` undisputed. -/
theorem spec_c7 (s : PaymentEngine) (c t : Nat)
    (hj : s.transactions.get_transaction t = some ⟨TransactionType.Deposit, c, t, some 100⟩)
    (hd : s.transactions.is_disputed t = false)
    (hv : s.view c = ⟨c, 100, 0, 100, false⟩) :
    (processAll s [⟨TransactionType.Dispute, c, t, none⟩,
                   ⟨TransactionType.Resolve, c, t, none⟩]).view c =
      ⟨c, 100, 0, 100, false⟩ ∧
    (processAll s [⟨TransactionType.Dispute, c, t, none⟩,
                   ⟨TransactionType.Resolve, c, t, none⟩]).transactions.is_disputed t =
      false := by
  have hsc : s.accounts.accounts c = some ⟨c, 100, 0, 100, false⟩ := by
    have hv' := hv
    unfold PaymentEngine.view at hv'
    rcases h : s.accounts.accounts c with _ | a
    · rw [h] at hv'
      norm_num [Account.new] at hv'
    · rw [h] at hv'
      simp at hv'
      rw [hv']
  have hj' : s.transactions.transactions t =
      some ⟨TransactionType.Deposit, c, t, some 100⟩ := hj
  have hd' : (s.transactions.disputed t).getD false = false := hd
  have h1 : stepState s ⟨TransactionType.Dispute, c, t, none⟩ =
      { accounts := s.accounts.insert c ⟨c, 0, 100, 100, false⟩,
        transactions := s.transactions.set_disputed t true } := by
    norm_num [stepState, PaymentEngine.process_transaction,
      AccountStore.get_or_create_account, hsc, PaymentEngine.handle_dispute,
      TransactionStore.get_transaction, hj', TransactionStore.is_disputed, hd',
      Account.hold]
  simp only [processAll, List.foldl_cons, List.foldl_nil]
  rw [h1]
  constructor <;>
    norm_num [stepState, PaymentEngine.process_transaction,
      AccountStore.get_or_create_account, AccountStore.insert,
      PaymentEngine.handle_resolve, TransactionStore.get_transaction,
      TransactionStore.set_disputed, TransactionStore.is_disputed, hj',
      Account.release, PaymentEngine.view]

/-- Witness for C7 from the state reached by a single deposit of 100. -/
theorem spec_c7_witness :
    (processAll (processAll PaymentEngine.new [⟨TransactionType.Deposit, 1, 1, some 100⟩])
        [⟨TransactionType.Dispute, 1, 1, none⟩,
         ⟨TransactionType.Resolve, 1, 1, none⟩]).view 1 =
      ⟨1, 100, 0, 100, false⟩ ∧
    (processAll (processAll PaymentEngine.new [⟨TransactionType.Deposit, 1, 1, some 100⟩])
        [⟨TransactionType.Dispute, 1, 1, none⟩,
         ⟨TransactionType.Resolve, 1, 1, none⟩]).transactions.is_disputed 1 =
      false := by
  refine spec_c7 _ 1 1 ?_ ?_ ?_ <;>
    norm_num [processAll, stepState, PaymentEngine.process_transaction,
      PaymentEngine.handle_deposit, AccountStore.get_or_create_account,
      AccountStore.insert, AccountStore.new, TransactionStore.new,
      TransactionStore.add_transaction, TransactionStore.get_transaction,
      TransactionStore.is_disputed, Account.new, Account.deposit,
      PaymentEngine.new, PaymentEngine.view]

/-! ### Claim C8: deposit, dispute, chargeback ends at the locked zero state -/

/-- Claim C8: from a fresh engine, Deposit(100) with id `t`, then Dispute(t),
then Chargeback(t) for the same client yields
`available=0, held=0, total=0, locked=true`, and `t` is no longer disputed. -/
theorem spec_c8 (c t : Nat) :
    (processAll PaymentEngine.new
      [⟨TransactionType.Deposit, c, t, some 100⟩,
       ⟨TransactionType.Dispute, c, t, none⟩,
       ⟨TransactionType.Chargeback, c, t, none⟩]).view c = ⟨c, 0, 0, 0, true⟩ ∧
    (processAll PaymentEngine.new
      [⟨TransactionType.Deposit, c, t, some 100⟩,
       ⟨TransactionType.Dispute, c, t, none⟩,
       ⟨TransactionType.Chargeback, c, t, none⟩]).transactions.is_disputed t = false := by
  constructor <;>
    norm_num [processAll, stepState, PaymentEngine.process_transaction,
      PaymentEngine.handle_deposit, PaymentEngine.handle_dispute,
      PaymentEngine.handle_chargeback, AccountStore.get_or_create_account,
      AccountStore.insert, AccountStore.new, TransactionStore.new,
      TransactionStore.add_transaction, TransactionStore.set_disputed,
      TransactionStore.is_disputed, TransactionStore.get_transaction,
      Account.new, Account.deposit, Account.hold, Account.chargeback,
      PaymentEngine.new, PaymentEngine.view]

/-- Witness for C8 at client 1, transaction id 1. -/
theorem spec_c8_witness :
    (processAll PaymentEngine.new
      [⟨TransactionType.Deposit, 1, 1, some 100⟩,
       ⟨TransactionType.Dispute, 1, 1, none⟩,
       ⟨TransactionType.Chargeback, 1, 1, none⟩]).view 1 = ⟨1, 0, 0, 0, true⟩ ∧
    (processAll PaymentEngine.new
      [⟨TransactionType.Deposit, 1, 1, some 100⟩,
       ⟨TransactionType.Dispute, 1, 1, none⟩,
       ⟨TransactionType.Chargeback, 1, 1, none⟩]).transactions.is_disputed 1 = false :=
  spec_c8 1 1

/-! ### Claim C9: missing-amount records -/

/-- Counterexample to C9 as stated. First: a Deposit record with a missing
amount from a previously unseen client does change the engine state — the
lock-gate's `get_or_create_account` inserts a fresh account before the amount
is checked, and that account appears in the final snapshot. Second: for a
locked account the record is dropped at the lock gate without signalling the
missing-amount error at all. -/
theorem spec_c9_counterexample :
    (stepState PaymentEngine.new ⟨TransactionType.Deposit, 1, 7, none⟩).accounts.accounts 1 ≠
      PaymentEngine.new.accounts.accounts 1 ∧
    (PaymentEngine.process_transaction
        (processAll PaymentEngine.new
          [⟨TransactionType.Deposit, 1, 1, some 100⟩,
           ⟨TransactionType.Dispute, 1, 1, none⟩,
           ⟨TransactionType.Chargeback, 1, 1, none⟩])
        ⟨TransactionType.Deposit, 1, 8, none⟩).2 = none := by
  refine ⟨?_, ?_⟩ <;>
      norm_num [processAll, stepState, PaymentEngine.process_transaction,
        PaymentEngine.handle_deposit, PaymentEngine.handle_dispute,
        PaymentEngine.handle_chargeback, AccountStore.get_or_create_account,
        AccountStore.insert, AccountStore.new, TransactionStore.new,
        TransactionStore.add_transaction, TransactionStore.set_disputed,
        TransactionStore.is_disputed, TransactionStore.get_transaction,
        Account.new, Account.deposit, Account.hold, Account.chargeback,
        PaymentEngine.new] <;>
    decide

/-- Amended C9: for a Deposit or Withdrawal record with a missing amount whose
client's account is not locked, the engine signals the distinct MissingAmount
error; every account's observable state, the journal and the disputed overlay
are unchanged (the only store change is the lazy creation of a zero account
for an unseen client), and batch processing continues with the rest of the
batch. -/
theorem spec_c9_amended (s : PaymentEngine) (r : Transaction)
    (hk : r.transaction_type = TransactionType.Deposit ∨
      r.transaction_type = TransactionType.Withdrawal)
    (hamt : r.amount = none)
    (hl : (s.view r.client).locked = false) :
    (s.process_transaction r).2 = some (PaymentEngineError.MissingAmount r.tx) ∧
    (∀ c, (stepState s r).view c = s.view c) ∧
    (stepState s r).transactions = s.transactions ∧
    (∀ rest : List Transaction,
      (stepState s r).process_transaction_batch rest =
        s.process_transaction_batch (r :: rest)) := by
  rcases hga : s.accounts.get_or_create_account r.client with ⟨account, st⟩
  have hfst : account = s.view r.client := by
    have h := get_or_create_fst s.accounts r.client
    rw [hga] at h
    exact h
  have hview : ∀ x, (st.accounts x).getD (Account.new x) =
      (s.accounts.accounts x).getD (Account.new x) := by
    intro x
    have h := get_or_create_snd_view s.accounts r.client x
    rw [hga] at h
    exact h
  have hgate : ¬(account.locked = true ∧
      r.transaction_type ≠ TransactionType.Dispute) := by
    intro hcon
    rw [hfst, hl] at hcon
    exact absurd hcon.1 (by simp)
  have hstep : stepState s r = { accounts := st, transactions := s.transactions } := by
    rcases hk with hk | hk <;>
      (simp only [stepState, PaymentEngine.process_transaction, hga]
       rw [if_neg hgate]
       simp only [hk]) <;>
      [simp only [PaymentEngine.handle_deposit, hamt];
       simp only [PaymentEngine.handle_withdrawal, hamt]]
  have herr : (s.process_transaction r).2 = some (PaymentEngineError.MissingAmount r.tx) := by
    rcases hk with hk | hk <;>
      (simp only [PaymentEngine.process_transaction, hga]
       rw [if_neg hgate]
       simp only [hk]) <;>
      [simp only [PaymentEngine.handle_deposit, hamt];
       simp only [PaymentEngine.handle_withdrawal, hamt]]
  refine ⟨herr, ?_, ?_, ?_⟩
  · intro c
    rw [hstep]
    exact hview c
  · rw [hstep]
  · intro rest
    have hfold : s.process_transaction_batch (r :: rest) =
        (stepState s r).process_transaction_batch rest := rfl
    rw [hfold, hstep]

/-- Witness for the amended C9: a missing-amount deposit on a fresh engine. -/
theorem spec_c9_witness :
    (PaymentEngine.new.process_transaction ⟨TransactionType.Deposit, 1, 7, none⟩).2 =
      some (PaymentEngineError.MissingAmount 7) ∧
    (stepState PaymentEngine.new ⟨TransactionType.Deposit, 1, 7, none⟩).view 1 =
      PaymentEngine.new.view 1 ∧
    (stepState PaymentEngine.new ⟨TransactionType.Deposit, 1, 7, none⟩).transactions =
      PaymentEngine.new.transactions := by
  have h := spec_c9_amended PaymentEngine.new ⟨TransactionType.Deposit, 1, 7, none⟩
    (Or.inl rfl) rfl rfl
  exact ⟨h.1, h.2.1 1, h.2.2.1⟩

/-! ### Claim C10: a dispute against a locked account is a complete no-op -/

/-- Well-formedness of a journal: every stored entry carries an amount (the
handlers only journal a record after extracting its amount). -/
def TSWF (ts : TransactionStore) : Prop :=
  ∀ u e, ts.get_transaction u = some e → e.amount ≠ none

theorem tswf_add (ts : TransactionStore) (tr : Transaction) (h : TSWF ts)
    (htr : tr.amount ≠ none) : TSWF (ts.add_transaction tr) := by
  intro u e he
  by_cases hu : u = tr.tx
  · subst hu
    simp [TransactionStore.add_transaction, TransactionStore.get_transaction] at he
    rw [← he]
    exact htr
  · simp [TransactionStore.add_transaction, TransactionStore.get_transaction, hu] at he
    exact h u e he

theorem tswf_set (ts : TransactionStore) (u' : Nat) (b : Bool) (h : TSWF ts) :
    TSWF (ts.set_disputed u' b) := by
  intro u e he
  exact h u e he

/-- All journal entries of the engine carry an amount. -/
def JournalWF (s : PaymentEngine) : Prop := TSWF s.transactions

theorem journalWF_deposit (s : PaymentEngine) (t : Transaction) (hs : JournalWF s) :
    JournalWF (s.handle_deposit t).1 := by
  rcases hga : s.accounts.get_or_create_account t.client with ⟨account, st⟩
  rcases hamt : t.amount with _ | amt
  · simp only [PaymentEngine.handle_deposit, hamt]
    exact hs
  · simp only [PaymentEngine.handle_deposit, hamt, hga]
    exact tswf_add _ t hs (by rw [hamt]; exact Option.some_ne_none amt)

theorem journalWF_withdrawal (s : PaymentEngine) (t : Transaction) (hs : JournalWF s) :
    JournalWF (s.handle_withdrawal t).1 := by
  rcases hga : s.accounts.get_or_create_account t.client with ⟨account, st⟩
  rcases hamt : t.amount with _ | amt
  · simp only [PaymentEngine.handle_withdrawal, hamt]
    exact hs
  · simp only [PaymentEngine.handle_withdrawal, hamt, hga]
    split
    · exact hs
    · exact tswf_add _ t hs (by rw [hamt]; exact Option.some_ne_none amt)

theorem journalWF_dispute (s : PaymentEngine) (t : Transaction) (hs : JournalWF s) :
    JournalWF (s.handle_dispute t).1 := by
  rcases hor : s.transactions.get_transaction t.tx with _ | orig
  · simp only [PaymentEngine.handle_dispute, hor]
    exact hs
  · simp only [PaymentEngine.handle_dispute, hor]
    split
    · exact hs
    split
    · exact hs
    split
    · exact hs
    rcases hamt : orig.amount with _ | amt
    · exact hs
    · rcases hga : s.accounts.get_or_create_account t.client with ⟨account, st⟩
      simp only [hga]
      rcases hh : account.hold amt with ⟨ok, account2⟩
      simp only [hh]
      split
      · exact tswf_set _ _ _ hs
      · exact tswf_set _ _ _ (tswf_set _ _ _ hs)

theorem journalWF_resolve (s : PaymentEngine) (t : Transaction) (hs : JournalWF s) :
    JournalWF (s.handle_resolve t).1 := by
  rcases hor : s.transactions.get_transaction t.tx with _ | orig
  · simp only [PaymentEngine.handle_resolve, hor]
    exact hs
  · simp only [PaymentEngine.handle_resolve, hor]
    split
    · exact hs
    split
    · exact hs
    rcases hamt : orig.amount with _ | amt
    · exact hs
    · rcases hga : s.accounts.get_or_create_account t.client with ⟨account, st⟩
      simp only [hga]
      rcases hh : account.release amt with ⟨ok, account2⟩
      simp only [hh]
      split
      · exact tswf_set _ _ _ hs
      · exact tswf_set _ _ _ (tswf_set _ _ _ hs)

theorem journalWF_chargeback (s : PaymentEngine) (t : Transaction) (hs : JournalWF s) :
    JournalWF (s.handle_chargeback t).1 := by
  rcases hor : s.transactions.get_transaction t.tx with _ | orig
  · simp only [PaymentEngine.handle_chargeback, hor]
    exact hs
  · simp only [PaymentEngine.handle_chargeback, hor]
    split
    · exact hs
    split
    · exact hs
    rcases hamt : orig.amount with _ | amt
    · exact hs
    · rcases hga : s.accounts.get_or_create_account t.client with ⟨account, st⟩
      simp only [hga]
      rcases hh : account.chargeback amt with ⟨ok, account2⟩
      simp only [hh]
      split
      · exact tswf_set _ _ _ hs
      · exact tswf_set _ _ _ (tswf_set _ _ _ hs)

theorem journalWF_step (s : PaymentEngine) (t : Transaction) (hs : JournalWF s) :
    JournalWF (stepState s t) := by
  rcases hga : s.accounts.get_or_create_account t.client with ⟨account, st⟩
  have hs' : JournalWF { accounts := st, transactions := s.transactions } := hs
  simp only [stepState, PaymentEngine.process_transaction, hga]
  split
  · exact hs'
  · rcases ht : t.transaction_type with _ | _ | _ | _ | _ <;> simp only [ht]
    · exact journalWF_deposit _ t hs'
    · exact journalWF_withdrawal _ t hs'
    · exact journalWF_dispute _ t hs'
    · exact journalWF_resolve _ t hs'
    · exact journalWF_chargeback _ t hs'

/-- A state is reachable when it arises from processing some record list on
the fresh engine. -/
def Reachable (s : PaymentEngine) : Prop :=
  ∃ l : List Transaction, s = processAll PaymentEngine.new l

theorem journalWF_processAll (l : List Transaction) (s : PaymentEngine)
    (hs : JournalWF s) : JournalWF (processAll s l) := by
  induction l generalizing s with
  | nil => exact hs
  | cons t rest ih =>
    simpa [processAll] using ih (stepState s t) (journalWF_step s t hs)

theorem reachable_journalWF (s : PaymentEngine) (h : Reachable s) : JournalWF s := by
  obtain ⟨l, rfl⟩ := h
  refine journalWF_processAll l PaymentEngine.new ?_
  intro u e he
  simp [PaymentEngine.new, TransactionStore.new, TransactionStore.get_transaction] at he

/-- For a locked account, any record leaves the whole journal observably
unchanged and signals no error. -/
theorem step_locked_journal (s : PaymentEngine) (r : Transaction)
    (hwf : JournalWF s) (hl : (s.view r.client).locked = true) :
    (s.process_transaction r).2 = none ∧
    (s.process_transaction r).1.transactions.transactions = s.transactions.transactions ∧
    (∀ u, (s.process_transaction r).1.transactions.is_disputed u =
      s.transactions.is_disputed u) := by
  have hacc : ∃ a, s.accounts.accounts r.client = some a ∧ a.locked = true := by
    unfold PaymentEngine.view at hl
    rcases hsc : s.accounts.accounts r.client with _ | a
    · rw [hsc] at hl
      simp [Account.new] at hl
    · rw [hsc] at hl
      exact ⟨a, rfl, hl⟩
  obtain ⟨a, hsc, hal⟩ := hacc
  have hga : s.accounts.get_or_create_account r.client = (a, s.accounts) := by
    unfold AccountStore.get_or_create_account
    rw [hsc]
  simp only [PaymentEngine.process_transaction, hga]
  split
  · exact ⟨by trivial, by trivial, fun u => by trivial⟩
  · rename_i hgate
    have htd : r.transaction_type = TransactionType.Dispute := by
      by_contra hne
      exact hgate ⟨hal, hne⟩
    simp only [htd]
    show (s.handle_dispute r).2 = none ∧
      (s.handle_dispute r).1.transactions.transactions = s.transactions.transactions ∧
      (∀ u, (s.handle_dispute r).1.transactions.is_disputed u =
        s.transactions.is_disputed u)
    rcases hor : s.transactions.get_transaction r.tx with _ | e
    · simp only [PaymentEngine.handle_dispute, hor]
      exact ⟨by trivial, by trivial, fun u => by trivial⟩
    · simp only [PaymentEngine.handle_dispute, hor]
      split
      · exact ⟨by trivial, by trivial, fun u => by trivial⟩
      split
      · exact ⟨by trivial, by trivial, fun u => by trivial⟩
      split
      · exact ⟨by trivial, by trivial, fun u => by trivial⟩
      · rename_i h1 h2 h3
        rcases hamt : e.amount with _ | amt
        · exact absurd hamt (hwf r.tx e hor)
        · have hh : a.hold amt = (false, a) := by
            unfold Account.hold
            simp [hal]
          simp only [hga, hh, Bool.false_eq_true, ite_false]
          refine ⟨by trivial, by trivial, ?_⟩
          intro u
          have hd3 : (s.transactions.disputed r.tx).getD false = false := by
            rcases hx : s.transactions.is_disputed r.tx
            · exact hx
            · exact absurd hx h3
          by_cases hu : u = r.tx
          · subst hu
            simpa [TransactionStore.is_disputed, TransactionStore.set_disputed] using hd3
          · simp [TransactionStore.is_disputed, TransactionStore.set_disputed, hu]

/-- Claim C10: in any reachable state with a locked account, a Dispute record
for that client passes the lock gate but is a complete no-op: the hold fails
on the locked account, the disputed flag is rolled back, no error is
signalled, and neither balances, journal entries nor the disputed overlay
change observably. -/
theorem spec_c10 (s : PaymentEngine) (r : Transaction)
    (hres : Reachable s)
    (hk : r.transaction_type = TransactionType.Dispute)
    (hl : (s.view r.client).locked = true) :
    (s.process_transaction r).2 = none ∧
    (∀ c, (stepState s r).view c = s.view c) ∧
    (stepState s r).transactions.transactions = s.transactions.transactions ∧
    (∀ u, (stepState s r).transactions.is_disputed u = s.transactions.is_disputed u) := by
  have hwf := reachable_journalWF s hres
  have hj := step_locked_journal s r hwf hl
  have ha := step_locked_accounts s r hl
  refine ⟨hj.1, ?_, hj.2.1, hj.2.2⟩
  intro c
  unfold PaymentEngine.view
  rw [ha c]

/-- Witness for C10: dispute against the locked account reached by a
chargeback; the account and overlay are untouched and no error is raised. -/
theorem spec_c10_witness :
    (PaymentEngine.process_transaction
        (processAll PaymentEngine.new
          [⟨TransactionType.Deposit, 1, 1, some 100⟩,
           ⟨TransactionType.Dispute, 1, 1, none⟩,
           ⟨TransactionType.Chargeback, 1, 1, none⟩])
        ⟨TransactionType.Dispute, 1, 1, none⟩).2 = none ∧
    (stepState
        (processAll PaymentEngine.new
          [⟨TransactionType.Deposit, 1, 1, some 100⟩,
           ⟨TransactionType.Dispute, 1, 1, none⟩,
           ⟨TransactionType.Chargeback, 1, 1, none⟩])
        ⟨TransactionType.Dispute, 1, 1, none⟩).view 1 =
      (processAll PaymentEngine.new
          [⟨TransactionType.Deposit, 1, 1, some 100⟩,
           ⟨TransactionType.Dispute, 1, 1, none⟩,
           ⟨TransactionType.Chargeback, 1, 1, none⟩]).view 1 ∧
    (stepState
        (processAll PaymentEngine.new
          [⟨TransactionType.Deposit, 1, 1, some 100⟩,
           ⟨TransactionType.Dispute, 1, 1, none⟩,
           ⟨TransactionType.Chargeback, 1, 1, none⟩])
        ⟨TransactionType.Dispute, 1, 1, none⟩).transactions.is_disputed 1 =
      (processAll PaymentEngine.new
          [⟨TransactionType.Deposit, 1, 1, some 100⟩,
           ⟨TransactionType.Dispute, 1, 1, none⟩,
           ⟨TransactionType.Chargeback, 1, 1, none⟩]).transactions.is_disputed 1 := by
  have hl : ((processAll PaymentEngine.new
      [⟨TransactionType.Deposit, 1, 1, some 100⟩,
       ⟨TransactionType.Dispute, 1, 1, none⟩,
       ⟨TransactionType.Chargeback, 1, 1, none⟩]).view 1).locked = true := by
    norm_num [processAll, stepState, PaymentEngine.process_transaction,
      PaymentEngine.handle_deposit, PaymentEngine.handle_dispute,
      PaymentEngine.handle_chargeback, AccountStore.get_or_create_account,
      AccountStore.insert, AccountStore.new, TransactionStore.new,
      TransactionStore.add_transaction, TransactionStore.set_disputed,
      TransactionStore.is_disputed, TransactionStore.get_transaction,
      Account.new, Account.deposit, Account.hold, Account.chargeback,
      PaymentEngine.new, PaymentEngine.view]
  have h := spec_c10 _ ⟨TransactionType.Dispute, 1, 1, none⟩
    ⟨[⟨TransactionType.Deposit, 1, 1, some 100⟩,
      ⟨TransactionType.Dispute, 1, 1, none⟩,
      ⟨TransactionType.Chargeback, 1, 1, none⟩], rfl⟩ rfl hl
  exact ⟨h.1, h.2.1 1, h.2.2.2 1⟩

end Payments
